import Mathlib

/-!
Shallow embedding of the LayerScan design-linting engine
(src/core/auditor.ts, src/core/fixers.ts, src/utils/nodeHelpers.ts,
src/core/rules/overflowingText.ts, src/core/types.ts) together with
theorems settling the specification claims about it.

JavaScript numbers are modelled as rationals (ℚ), with an explicit `nan`
marker where a computation can produce the IEEE NaN value on the code paths
the claims exercise; machine floating point rounding itself is not involved
in any claim (all concrete values are small integers or simple fractions).
Fallible JavaScript code (`throw`) is modelled with `Except`; `undefined`
with `Option`.
-/

namespace LayerScan

/-- A raw JavaScript value that can sit in a node's `width`/`height` field:
per `src/core/types.ts` these fields are `number | 'fill' | 'hug'` (strings
such as "109px" also occur in practice, which is why `parseDimension`
handles them). Modelled as a number or an arbitrary string. -/
inductive JsVal where
  | num (q : ℚ)
  | str (s : String)
deriving DecidableEq

/-- Result type of `parseDimension` (`number | 'fill' | undefined` in
TypeScript). The JavaScript `number` type contains NaN, which the regex
branch of `parseDimension` can produce (e.g. on "..px"), so the embedding
splits the number case into a finite value and `nan`. -/
inductive Dimension where
  | num (q : ℚ)
  | nan
  | fill
  | undefined
deriving DecidableEq

/-- Digit list to natural number, most significant first. -/
def digitsToNat (ds : List Char) : Nat :=
  ds.foldl (fun a c => 10 * a + (c.toNat - Char.toNat '0')) 0

/-- Skip the leading whitespace that JavaScript's `parseFloat` ignores. -/
def skipWs : List Char → List Char
  | [] => []
  | c :: rest =>
    if c == ' ' || c == '\t' || c == '\n' || c == '\r' then skipWs rest
    else c :: rest

/-- Embedding of the JavaScript builtin `parseFloat` restricted to the
grammar `[ws] [+|-] digits [. digits]` (a numeric PREFIX of the string;
trailing garbage is ignored, exactly as in JavaScript, so "12em" parses
to 12). `none` models the NaN result. Exponent forms ("1e3") and
"Infinity" are accepted by the real builtin but are not modelled; no
claim and no concrete input in this file uses them. -/
def jsParseFloatCore (cs : List Char) : Option ℚ :=
  let cs := skipWs cs
  let signAndRest : ℚ × List Char :=
    match cs with
    | '-' :: rest => (-1, rest)
    | '+' :: rest => (1, rest)
    | _ => (1, cs)
  let intPart := signAndRest.2.takeWhile Char.isDigit
  let afterInt := signAndRest.2.dropWhile Char.isDigit
  let fracPart : List Char :=
    match afterInt with
    | '.' :: rest => rest.takeWhile Char.isDigit
    | _ => []
  if intPart.isEmpty && fracPart.isEmpty then none
  else
    some (signAndRest.1 *
      ((digitsToNat intPart : ℚ) +
        (digitsToNat fracPart : ℚ) / ((10 : ℚ) ^ fracPart.length)))

/-- JavaScript `parseFloat` on a string; `none` models NaN. -/
def jsParseFloat (s : String) : Option ℚ :=
  jsParseFloatCore s.toList

/-- The capture group of the regex `^([0-9.]+)px$` used in `parseDimension`
(nodeHelpers.ts line 40): `some body` iff the string is a non-empty run of
digits and dots followed by exactly "px". (Implemented over the character
list so that it evaluates by kernel reduction.) -/
def pxBody (s : String) : Option String :=
  match s.toList.reverse with
  | 'x' :: 'p' :: bodyRev =>
    let body := bodyRev.reverse
    if body.length > 0 && body.all (fun c => c.isDigit || c == '.')
    then some (String.mk body)
    else none
  | _ => none

/-- Embedding of `parseDimension` (nodeHelpers.ts lines 35-47):
a number is returned as is; the strings "fill" and "1fr" give the fill
sentinel; a `<digits/dots>px` string gives `parseFloat` of the body
(NaN if the body has no digit); otherwise `parseFloat` of the whole
string if that is not NaN; otherwise undefined. -/
def parseDimension (value : JsVal) : Dimension :=
  match value with
  | .num q => .num q
  | .str s =>
    if s == "fill" || s == "1fr" then .fill
    else
      match pxBody s with
      | some body =>
        match jsParseFloat body with
        | some q => .num q
        | none => .nan
      | none =>
        match jsParseFloat s with
        | some q => .num q
        | none => .undefined

/-- A JavaScript number: finite or NaN. -/
inductive JsNum where
  | nan
  | fin (q : ℚ)
deriving DecidableEq

/-- JavaScript strict greater-than on numbers: false whenever NaN is
involved. -/
def jsGt : JsNum → JsNum → Bool
  | .fin a, .fin b => decide (b < a)
  | _, _ => false

/-- Embedding of `Math.round` (half toward positive infinity):
`Math.round(x) = ⌊x + 1/2⌋` for all finite x, hence
`Math.round(-0.5) = 0` and `Math.round(2.5) = 3`. -/
def jsRound (x : ℚ) : ℤ := ⌊x + 1 / 2⌋

/-- Embedding of `nearestGridValue` (nodeHelpers.ts lines 244-246):
`Math.round(value / gridBase) * gridBase`. -/
def nearestGridValue (value : ℚ) (gridBase : ℚ) : ℚ :=
  (jsRound (value / gridBase) : ℚ) * gridBase

/-- Truncation toward zero, as used by the JavaScript `%` operator. -/
def jsTrunc (x : ℚ) : ℤ := if 0 ≤ x then ⌊x⌋ else ⌈x⌉

/-- The JavaScript remainder operator `x % y` on finite numbers with
nonzero divisor: `x - y * trunc(x / y)` (sign follows the dividend). -/
def jsFmod (x y : ℚ) : ℚ := x - y * (jsTrunc (x / y) : ℚ)

/-- Embedding of `isOnGrid` (nodeHelpers.ts lines 251-253):
`value % gridBase === 0` (note `-0 === 0` is true in JavaScript, so the
sign of the remainder is irrelevant). -/
def isOnGrid (value : ℚ) (gridBase : ℚ) : Bool :=
  decide (jsFmod value gridBase = 0)

/-- A Framer canvas node (`FramerNode` in src/core/types.ts). The variants
Frame/Text/Image/Component are discriminated by the `__class` string tag
(`cls` here; `class` is reserved in Lean). Only the fields the claims
touch are carried: identity, name, the two dimension fields and the
children list; a TypeScript object without a `children` field is modelled
by the empty list (`getChildren` returns `[]` for it either way). -/
inductive FramerNode : Type where
  | mk (cls : String) (id : String) (name : Option String)
       (width : Option JsVal) (height : Option JsVal)
       (children : List FramerNode)

def FramerNode.cls : FramerNode → String
  | .mk c _ _ _ _ _ => c

def FramerNode.id : FramerNode → String
  | .mk _ i _ _ _ _ => i

def FramerNode.name : FramerNode → Option String
  | .mk _ _ n _ _ _ => n

def FramerNode.width : FramerNode → Option JsVal
  | .mk _ _ _ w _ _ => w

def FramerNode.height : FramerNode → Option JsVal
  | .mk _ _ _ _ h _ => h

def FramerNode.children : FramerNode → List FramerNode
  | .mk _ _ _ _ _ cs => cs

/-- Embedding of `isFrameNode` (nodeHelpers.ts line 12). -/
def isFrameNode (node : FramerNode) : Bool := node.cls == "FrameNode"

/-- Embedding of `isTextNode` (nodeHelpers.ts line 16). -/
def isTextNode (node : FramerNode) : Bool := node.cls == "TextNode"

/-- Embedding of `getChildren` (nodeHelpers.ts lines 185-190): the node's
own `children` array, or empty when the field is absent. -/
def getChildren (node : FramerNode) : List FramerNode := node.children

/-- Restriction of a `Dimension` to the JavaScript `number` type
(`typeof parsed === 'number'`, which is true for NaN as well). -/
def dimToNum : Dimension → Option JsNum
  | .num q => some (.fin q)
  | .nan => some .nan
  | .fill => none
  | .undefined => none

/-- Embedding of `getNodeWidth` (nodeHelpers.ts lines 52-58). -/
def getNodeWidth (node : FramerNode) : Option JsNum :=
  match node.width with
  | some v => dimToNum (parseDimension v)
  | none => none

/-- Embedding of `getNodeHeight` (nodeHelpers.ts lines 63-69). -/
def getNodeHeight (node : FramerNode) : Option JsNum :=
  match node.height with
  | some v => dimToNum (parseDimension v)
  | none => none

/-- Issue severity (src/core/types.ts). -/
inductive Severity where
  | info
  | warning
  | error
deriving DecidableEq

/-- Embedding of `createNodeRef` (nodeHelpers.ts lines 169-176). -/
structure NodeRef where
  id : String
  name : Option String
  type : Option String
  path : Option String
deriving DecidableEq

def createNodeRef (node : FramerNode) (path : Option String) : NodeRef :=
  { id := node.id
    name := node.name
    type := some ((node.cls.replace "Node" "").toLower)
    path := path }

/-- An issue detected by a rule (src/core/types.ts). The optional
asynchronous fix thunk is modelled by its observable outcome:
`none` = the `fixAction` field is absent; `some true` = a thunk that
completes; `some false` = a thunk that throws. Metadata values on the
claim-relevant code paths are numbers. -/
structure Issue where
  id : String
  node : NodeRef
  ruleId : String
  title : String
  description : String
  severity : Severity
  category : String
  canAutoFix : Bool
  fixAction : Option Bool
  metadata : List (String × ℚ)
deriving DecidableEq

/-- Plugin settings (src/core/types.ts lines 224-238). -/
structure PluginSettings where
  spacingGrid : ℚ
  confirmAutoFix : Bool
  enabledRules : List String
  disabledRules : List String
  analyticsEnabled : Bool
  maxDisplayedIssues : Nat
deriving DecidableEq

/-- `DEFAULT_SETTINGS` (src/core/types.ts lines 243-250). -/
def DEFAULT_SETTINGS : PluginSettings :=
  { spacingGrid := 8
    confirmAutoFix := true
    enabledRules := []
    disabledRules := []
    analyticsEnabled := false
    maxDisplayedIssues := 100 }

/-- Context passed to a rule during an audit (src/core/types.ts). -/
structure AuditContext where
  allNodes : List FramerNode
  parent : Option FramerNode
  siblings : List FramerNode
  settings : PluginSettings

/-- An audit rule (src/core/types.ts). `check` is asynchronous TypeScript
that can throw; it is modelled as a total function into `Except`, where
`.error msg` is a thrown error carrying its message string. -/
structure Rule where
  id : String
  category : String
  name : String
  description : String
  enabledByDefault : Bool
  check : FramerNode → AuditContext → Except String (Option Issue)

/-- Result of `auditNodes` (src/core/types.ts). `durationMs` is wall-clock
time (`performance.now()` deltas) and is not modelled; no claim concerns
its value. -/
structure AuditResult where
  issues : List Issue
  nodesAudited : Nat
  errors : Option (List String)

/-- The mutable accumulators of the `auditNodes` loop (auditor.ts lines
19-21): `issues`, `errors` and the `seenIssues` set (a `Set<string>`,
modelled as the list of inserted ids, queried by membership only). -/
structure AuditState where
  issues : List Issue
  errors : List String
  seen : List String

/- Embedding of `flattenNodes` (auditor.ts lines 64-93). In the pure
embedding the external `framer.getChildren` provider of the try branch is
absent (the dynamic import fails outside the host), so the code takes its
documented fallback path: the node's own `getChildren`. `traverseNode` is
the inner `traverse`, `traverseForest` the loop over a child list. -/
mutual

def traverseNode : FramerNode → List FramerNode
  | .mk c i n w h children => .mk c i n w h children :: traverseForest children

def traverseForest : List FramerNode → List FramerNode
  | [] => []
  | node :: rest => traverseNode node ++ traverseForest rest

end

def flattenNodes (nodes : List FramerNode) : List FramerNode :=
  traverseForest nodes

/- Embedding of `getAllDescendants` (nodeHelpers.ts lines 209-219):
each child followed by its own descendants, in order. -/
mutual

def getAllDescendants : FramerNode → List FramerNode
  | .mk _ _ _ _ _ children => descendantsOfForest children

def descendantsOfForest : List FramerNode → List FramerNode
  | [] => []
  | child :: rest =>
    child :: (getAllDescendants child ++ descendantsOfForest rest)

end

/-- Embedding of `buildContext` (auditor.ts lines 98-122): scan the
flattened list for the first node whose children contain this node's id;
siblings are that parent's other children. -/
def buildContext (node : FramerNode) (allNodes : List FramerNode)
    (settings : PluginSettings) : AuditContext :=
  match allNodes.find?
      (fun p => (getChildren p).any (fun child => child.id == node.id)) with
  | some p =>
    { allNodes := allNodes
      parent := some p
      siblings := (getChildren p).filter (fun child => child.id != node.id)
      settings := settings }
  | none =>
    { allNodes := allNodes, parent := none, siblings := [], settings := settings }

/-- Embedding of `getEnabledRules` (auditor.ts lines 127-142). The
TypeScript closes over the module-level `allRules` registry; the registry
is a parameter here because the concrete rules are host code. -/
def getEnabledRules (rules : List Rule) (settings : PluginSettings) : List Rule :=
  rules.filter (fun rule =>
    if settings.disabledRules.contains rule.id then false
    else if settings.enabledRules.length > 0 then
      settings.enabledRules.contains rule.id
    else rule.enabledByDefault)

/-- The error string built in the catch block of `auditNodes`
(auditor.ts line 44). -/
def formatRuleError (ruleId nodeId msg : String) : String :=
  "Rule \"" ++ ruleId ++ "\" failed on node \"" ++ nodeId ++ "\": " ++ msg

/-- One iteration of the inner loop of `auditNodes` (auditor.ts lines
32-48): run `rule.check` on `node`; a returned issue is appended unless
its id was already seen; a thrown error is formatted and appended to the
error list, and the loop continues. -/
def runRuleOnNode (st : AuditState) (rule : Rule) (node : FramerNode)
    (context : AuditContext) : AuditState :=
  match rule.check node context with
  | .ok (some issue) =>
    if st.seen.contains issue.id then st
    else { st with seen := issue.id :: st.seen, issues := st.issues ++ [issue] }
  | .ok none => st
  | .error e =>
    { st with errors := st.errors ++ [formatRuleError rule.id node.id e] }

/-- The state of the `auditNodes` accumulators after the node/rule double
loop (auditor.ts lines 29-49): outer loop over the flattened nodes, inner
loop over the enabled rules, context built per node against the full
flattened list. -/
def auditFinalState (rules : List Rule) (nodes : List FramerNode)
    (settings : PluginSettings) : AuditState :=
  (flattenNodes nodes).foldl
    (fun st node =>
      (getEnabledRules rules settings).foldl
        (fun st rule =>
          runRuleOnNode st rule node (buildContext node (flattenNodes nodes) settings))
        st)
    ⟨[], [], []⟩

/-- Embedding of `auditNodes` (auditor.ts lines 14-59), parametric in the
rule registry (see `getEnabledRules`): the accumulated issues, the
flattened node count, and the error list only when non-empty. -/
def auditNodes (rules : List Rule) (nodes : List FramerNode)
    (settings : PluginSettings) : AuditResult :=
  { issues := (auditFinalState rules nodes settings).issues
    nodesAudited := (flattenNodes nodes).length
    errors :=
      if (auditFinalState rules nodes settings).errors.length > 0
      then some (auditFinalState rules nodes settings).errors
      else none }

/-- Embedding of `sortBySeverity` (auditor.ts lines 175-178). The source
sorts a copy with the comparator `severityOrder[a] - severityOrder[b]`;
ECMAScript `Array.prototype.sort` is specified to be stable (ES2019), and
the stable ascending sort by a numeric key is exactly what Mathlib's
insertion sort computes for the reflexive key order used here. -/
def severityOrder : Severity → Nat
  | .error => 0
  | .warning => 1
  | .info => 2

def sortBySeverity (issues : List Issue) : List Issue :=
  issues.insertionSort
    (fun a b => severityOrder a.severity ≤ severityOrder b.severity)

/- The same recursion as `flattenNodes`, but over an arbitrary
id-to-children map instead of an inductive (hence necessarily acyclic)
tree, with an explicit budget on the depth of nested `traverse` calls.
This is the faithful shape of the source recursion when the host hands it
a structure that is NOT a tree: `traverse(node)` pushes the node and then
recurses into every child one level deeper. `none` means the budget was
exhausted with the recursion still running; note the source has no error
path whatsoever here — there is no visited set and no depth cap, so on a
cyclic structure no result and no error is ever produced. -/
mutual

def traverseFuel (ch : String → List String) : Nat → String → Option (List String)
  | 0, _ => none
  | fuel + 1, nodeId =>
    match traverseFuelList ch fuel (ch nodeId) with
    | some visited => some (nodeId :: visited)
    | none => none

def traverseFuelList (ch : String → List String) :
    Nat → List String → Option (List String)
  | _, [] => some []
  | fuel, c :: cs =>
    match traverseFuel ch fuel c with
    | some v1 =>
      match traverseFuelList ch fuel cs with
      | some v2 => some (v1 ++ v2)
      | none => none
    | none => none

end

/-- The smallest cyclic structure a host could supply: one node whose
children list contains the node itself. -/
def selfCycleChildren : String → List String := fun _ => ["a"]

/-- Embedding of `applyFix` (fixers.ts lines 24-37): false without side
effects when the issue is not auto-fixable or has no thunk; otherwise the
thunk's outcome (false when it throws, the error being only logged). -/
def applyFix (issue : Issue) : Bool :=
  if !issue.canAutoFix || issue.fixAction.isNone then false
  else issue.fixAction.getD false

/-- Observable outcome of `applyAllFixes`: the returned counters plus the
argument pairs passed to the `onProgress` callback, in call order. -/
structure FixAllResult where
  success : Nat
  failed : Nat
  progressCalls : List (Nat × Nat)
deriving DecidableEq

/-- The indexed loop of `applyAllFixes` (fixers.ts lines 50-63): apply
each fixable issue in order, bump the matching counter, then invoke
`onProgress(i + 1, total)`. -/
def fixLoop (total : Nat) (i : Nat) : List Issue → Nat × Nat × List (Nat × Nat)
  | [] => (0, 0, [])
  | issue :: rest =>
    let result := applyFix issue
    let restOut := fixLoop total (i + 1) rest
    (if result then restOut.1 + 1 else restOut.1,
     if result then restOut.2.1 else restOut.2.1 + 1,
     (i + 1, total) :: restOut.2.2)

/-- Embedding of `applyAllFixes` (fixers.ts lines 42-66). -/
def applyAllFixes (issues : List Issue) : FixAllResult :=
  let fixableIssues :=
    issues.filter (fun issue => issue.canAutoFix && issue.fixAction.isSome)
  let out := fixLoop fixableIssues.length 0 fixableIssues
  { success := out.1, failed := out.2.1, progressCalls := out.2.2 }

/-- An undo log entry (fixers.ts lines 10-16). `previousValue` has
TypeScript type `unknown`; it is carried opaquely as a string. -/
structure UndoEntry where
  issueId : String
  nodeId : String
  property : String
  previousValue : String
  timestamp : Nat
deriving DecidableEq

/-- `MAX_UNDO_ENTRIES` (fixers.ts line 19). -/
def MAX_UNDO_ENTRIES : Nat := 50

/-- Embedding of `storeUndo` (fixers.ts lines 71-91). The module-level
mutable `undoStack` array is passed explicitly; `Date.now()` is the
explicit `timestamp` argument. Source order: push the entry, then
`shift()` (drop the oldest) if the length now exceeds the capacity. -/
def storeUndo (undoStack : List UndoEntry) (issueId nodeId property previousValue : String)
    (timestamp : Nat) : List UndoEntry :=
  let entry : UndoEntry :=
    { issueId := issueId, nodeId := nodeId, property := property
      previousValue := previousValue, timestamp := timestamp }
  let pushed := undoStack ++ [entry]
  if pushed.length > MAX_UNDO_ENTRIES then pushed.drop 1 else pushed

/-- Embedding of `getLastUndo` (fixers.ts lines 96-98): scan a reversed
copy (newest first) for the first entry with the given issue id. -/
def getLastUndo (undoStack : List UndoEntry) (issueId : String) : Option UndoEntry :=
  undoStack.reverse.find? (fun entry => entry.issueId == issueId)

/-- Appends n undo entries with pairwise distinct issue ids
"e0", "e1", ... — the scenario of spec §8's ring-buffer property. -/
def pushManyUndos (n : Nat) : List UndoEntry :=
  (List.range n).foldl
    (fun stack k => storeUndo stack ("e" ++ toString k) "node" "prop" "val" k) []

/-- The height-overflow issue built by `overflowingTextRule.check`
(overflowingText.ts lines 36-54). Its fix thunk only logs, so it always
completes (`some true`). -/
def overflowHeightIssue (node : FramerNode) (textHeight parentHeight : ℚ) : Issue :=
  { id := "overflowing-text" ++ "-" ++ node.id
    node := createNodeRef node none
    ruleId := "overflowing-text"
    title := "Text overflows its frame"
    description := "Text height (" ++ toString textHeight ++
      "px) exceeds frame height (" ++ toString parentHeight ++
      "px). Content will be clipped."
    severity := .error
    category := "layout"
    canAutoFix := true
    fixAction := some true
    metadata := [("textHeight", textHeight), ("parentHeight", parentHeight),
                 ("overflow", textHeight - parentHeight)] }

/-- The width-overflow issue built by `overflowingTextRule.check`
(overflowingText.ts lines 59-77). -/
def overflowWidthIssue (node : FramerNode) (textWidth parentWidth : ℚ) : Issue :=
  { id := "overflowing-text" ++ "-width-" ++ node.id
    node := createNodeRef node none
    ruleId := "overflowing-text"
    title := "Text overflows frame width"
    description := "Text width (" ++ toString textWidth ++
      "px) exceeds frame width (" ++ toString parentWidth ++
      "px). Content may be clipped."
    severity := .warning
    category := "layout"
    canAutoFix := true
    fixAction := some true
    metadata := [("textWidth", textWidth), ("parentWidth", parentWidth),
                 ("overflow", textWidth - parentWidth)] }

/-- The width-overflow branch of the check (overflowingText.ts lines
58-80), reached only when the height condition was false. The source
condition `textWidth !== undefined && parentWidth !== undefined &&
textWidth > parentWidth` is false whenever either side is undefined or
NaN. -/
def overflowWidthBranch (node : FramerNode) (parent : FramerNode) : Option Issue :=
  match getNodeWidth node, getNodeWidth parent with
  | some (.fin textWidth), some (.fin parentWidth) =>
    if parentWidth < textWidth then some (overflowWidthIssue node textWidth parentWidth)
    else none
  | _, _ => none

/-- Embedding of `overflowingTextRule.check` (overflowingText.ts lines
16-81): only text nodes with a frame parent are checked; the height
comparison comes first and returns immediately when it fires; the width
comparison is reached only otherwise. -/
def overflowingTextCheck (node : FramerNode) (context : AuditContext) : Option Issue :=
  if !isTextNode node then none
  else
    match context.parent with
    | none => none
    | some parent =>
      if !isFrameNode parent then none
      else
        match getNodeHeight node, getNodeHeight parent with
        | some (.fin textHeight), some (.fin parentHeight) =>
          if parentHeight < textHeight then
            some (overflowHeightIssue node textHeight parentHeight)
          else overflowWidthBranch node parent
        | _, _ => overflowWidthBranch node parent

/-- `overflowingTextRule` (overflowingText.ts lines 9-82) as a registry
entry; its check never throws. -/
def overflowingTextRule : Rule :=
  { id := "overflowing-text"
    category := "layout"
    name := "Overflowing Text"
    description := "Detects text elements that overflow their container bounds"
    enabledByDefault := true
    check := fun node context => .ok (overflowingTextCheck node context) }

/-- Lifts `jsGt` to possibly-undefined values: the source guard
`a !== undefined && b !== undefined && a > b` as one boolean. -/
def jsGtOpt : Option JsNum → Option JsNum → Bool
  | some a, some b => jsGt a b
  | _, _ => false

/-!
Derived views of the `auditNodes` loop, used to state and prove the
deduplication and error-isolation claims: the nested node/rule loops are
a single left fold over the list of (rule, node, context) triples in
execution order.
-/

/-- One (rule, node, context) execution of the audit loop. -/
def stepPair (st : AuditState) (p : Rule × FramerNode × AuditContext) : AuditState :=
  runRuleOnNode st p.1 p.2.1 p.2.2

/-- The (rule, node, context) triples `auditNodes` executes, in execution
order: node-major (outer loop over the flattened nodes, inner loop over
the enabled rules). -/
def auditPairs (enabledRules : List Rule) (flat : List FramerNode)
    (settings : PluginSettings) : List (Rule × FramerNode × AuditContext) :=
  flat.flatMap (fun node =>
    enabledRules.map (fun rule => (rule, node, buildContext node flat settings)))

/-- The issues the rule checks return across the audit, in production
order, BEFORE deduplication. -/
def producedIssues (pairs : List (Rule × FramerNode × AuditContext)) : List Issue :=
  pairs.filterMap (fun p =>
    match p.1.check p.2.1 p.2.2 with
    | .ok (some issue) => some issue
    | _ => none)

/-- The formatted error strings for the (rule, node) pairs whose check
threw, in execution order. -/
def producedErrors (pairs : List (Rule × FramerNode × AuditContext)) : List String :=
  pairs.filterMap (fun p =>
    match p.1.check p.2.1 p.2.2 with
    | .error e => some (formatRuleError p.1.id p.2.1.id e)
    | _ => none)

/-- The raw (pre-deduplication) issue sequence of one `auditNodes` call. -/
def rawIssues (rules : List Rule) (nodes : List FramerNode)
    (settings : PluginSettings) : List Issue :=
  producedIssues (auditPairs (getEnabledRules rules settings) (flattenNodes nodes) settings)

/-- The error list of one `auditNodes` call. -/
def ruleErrors (rules : List Rule) (nodes : List FramerNode)
    (settings : PluginSettings) : List String :=
  producedErrors (auditPairs (getEnabledRules rules settings) (flattenNodes nodes) settings)

/-- Keep the first occurrence of each issue id, dropping later duplicates,
given the ids already seen. -/
def dedupFirstById : List Issue → List String → List Issue
  | [], _ => []
  | issue :: rest, seen =>
    if seen.contains issue.id then dedupFirstById rest seen
    else issue :: dedupFirstById rest (issue.id :: seen)

lemma foldl_stepPair_issues (pairs : List (Rule × FramerNode × AuditContext))
    (st : AuditState) :
    (pairs.foldl stepPair st).issues =
      st.issues ++ dedupFirstById (producedIssues pairs) st.seen := by
  induction pairs generalizing st with
  | nil => simp [producedIssues, dedupFirstById]
  | cons p rest ih =>
    rw [List.foldl_cons]
    rcases hc : p.1.check p.2.1 p.2.2 with e | o
    · have hstep : stepPair st p = { st with
          errors := st.errors ++ [formatRuleError p.1.id p.2.1.id e] } := by
        simp [stepPair, runRuleOnNode, hc]
      rw [hstep, ih]
      simp [producedIssues, List.filterMap_cons, hc]
    · rcases o with _ | issue
      · have hstep : stepPair st p = st := by simp [stepPair, runRuleOnNode, hc]
        rw [hstep, ih]
        simp [producedIssues, List.filterMap_cons, hc]
      · by_cases hseen : st.seen.contains issue.id = true
        · have hstep : stepPair st p = st := by
            simp only [stepPair, runRuleOnNode, hc]
            rw [if_pos hseen]
          rw [hstep, ih]
          simp only [producedIssues, List.filterMap_cons, hc, dedupFirstById]
          rw [if_pos hseen]
        · have hstep : stepPair st p = { st with
              seen := issue.id :: st.seen, issues := st.issues ++ [issue] } := by
            simp only [stepPair, runRuleOnNode, hc]
            rw [if_neg hseen]
          rw [hstep, ih]
          simp only [producedIssues, List.filterMap_cons, hc, dedupFirstById]
          rw [if_neg hseen]
          simp

lemma foldl_stepPair_errors (pairs : List (Rule × FramerNode × AuditContext))
    (st : AuditState) :
    (pairs.foldl stepPair st).errors = st.errors ++ producedErrors pairs := by
  induction pairs generalizing st with
  | nil => simp [producedErrors]
  | cons p rest ih =>
    rw [List.foldl_cons]
    rcases hc : p.1.check p.2.1 p.2.2 with e | o
    · have hstep : stepPair st p = { st with
          errors := st.errors ++ [formatRuleError p.1.id p.2.1.id e] } := by
        simp [stepPair, runRuleOnNode, hc]
      rw [hstep, ih]
      simp [producedErrors, List.filterMap_cons, hc]
    · rcases o with _ | issue
      · have hstep : stepPair st p = st := by simp [stepPair, runRuleOnNode, hc]
        rw [hstep, ih]
        simp [producedErrors, List.filterMap_cons, hc]
      · by_cases hseen : st.seen.contains issue.id = true
        · have hstep : stepPair st p = st := by
            simp only [stepPair, runRuleOnNode, hc]
            rw [if_pos hseen]
          rw [hstep, ih]
          simp [producedErrors, List.filterMap_cons, hc]
        · have hstep : stepPair st p = { st with
              seen := issue.id :: st.seen, issues := st.issues ++ [issue] } := by
            simp only [stepPair, runRuleOnNode, hc]
            rw [if_neg hseen]
          rw [hstep, ih]
          simp [producedErrors, List.filterMap_cons, hc]

lemma nested_foldl_eq_foldl_auditPairs (enabledRules : List Rule)
    (ctx : FramerNode → AuditContext) (nodes : List FramerNode) (st : AuditState) :
    nodes.foldl
      (fun st node =>
        enabledRules.foldl (fun st rule => runRuleOnNode st rule node (ctx node)) st) st
    = (nodes.flatMap (fun node =>
        enabledRules.map (fun rule => (rule, node, ctx node)))).foldl stepPair st := by
  induction nodes generalizing st with
  | nil => simp
  | cons node rest ih =>
    rw [List.foldl_cons, List.flatMap_cons, List.foldl_append, ← ih, List.foldl_map]
    rfl

lemma mem_dedup_not_seen (l : List Issue) (seen : List String) (iid : String)
    (h : iid ∈ (dedupFirstById l seen).map (fun issue => issue.id)) :
    seen.contains iid = false := by
  induction l generalizing seen with
  | nil => simp [dedupFirstById] at h
  | cons issue rest ih =>
    rw [dedupFirstById] at h
    by_cases hseen : seen.contains issue.id
    · rw [if_pos hseen] at h
      exact ih seen h
    · rw [if_neg hseen] at h
      simp only [List.map_cons, List.mem_cons] at h
      rcases h with h | h
      · subst h
        exact Bool.eq_false_iff.mpr hseen
      · have := ih (issue.id :: seen) h
        rw [List.contains_cons] at this
        simp only [Bool.or_eq_false_iff] at this
        exact this.2

lemma dedup_nodup (l : List Issue) (seen : List String) :
    ((dedupFirstById l seen).map (fun issue => issue.id)).Nodup := by
  induction l generalizing seen with
  | nil => simp [dedupFirstById]
  | cons issue rest ih =>
    rw [dedupFirstById]
    by_cases hseen : seen.contains issue.id
    · rw [if_pos hseen]
      exact ih seen
    · rw [if_neg hseen]
      simp only [List.map_cons, List.nodup_cons]
      refine ⟨fun hmem => ?_, ih (issue.id :: seen)⟩
      have := mem_dedup_not_seen rest (issue.id :: seen) issue.id hmem
      simp [List.contains_cons] at this

lemma auditFinalState_eq (rules : List Rule) (nodes : List FramerNode)
    (settings : PluginSettings) :
    auditFinalState rules nodes settings =
      (auditPairs (getEnabledRules rules settings) (flattenNodes nodes) settings).foldl
        stepPair ⟨[], [], []⟩ := by
  unfold auditFinalState auditPairs
  exact nested_foldl_eq_foldl_auditPairs (getEnabledRules rules settings)
    (fun node => buildContext node (flattenNodes nodes) settings) (flattenNodes nodes) _

lemma auditNodes_issues_eq (rules : List Rule) (nodes : List FramerNode)
    (settings : PluginSettings) :
    (auditNodes rules nodes settings).issues =
      dedupFirstById (rawIssues rules nodes settings) [] := by
  show (auditFinalState rules nodes settings).issues = _
  rw [auditFinalState_eq, foldl_stepPair_issues]
  rfl

lemma auditNodes_errors_eq (rules : List Rule) (nodes : List FramerNode)
    (settings : PluginSettings) :
    (auditNodes rules nodes settings).errors =
      if (ruleErrors rules nodes settings).length > 0
      then some (ruleErrors rules nodes settings) else none := by
  show (if (auditFinalState rules nodes settings).errors.length > 0
        then some (auditFinalState rules nodes settings).errors else none) = _
  rw [auditFinalState_eq, foldl_stepPair_errors]
  rfl

/-- C1: for every call `auditNodes(nodes, settings)` the returned issue
list has pairwise-distinct issue ids; it equals the first-occurrence
deduplication of the raw sequence of issues the rule checks produced, so
whenever two checks of the same audit produce issues with the same id,
only the first-produced one appears and every later duplicate is dropped
silently. -/
theorem auditNodes_dedups_issues (rules : List Rule) (nodes : List FramerNode)
    (settings : PluginSettings) :
    (auditNodes rules nodes settings).issues =
      dedupFirstById (rawIssues rules nodes settings) []
    ∧ ((auditNodes rules nodes settings).issues.map (fun issue => issue.id)).Nodup :=
  ⟨auditNodes_issues_eq rules nodes settings,
   by rw [auditNodes_issues_eq rules nodes settings]; exact dedup_nodup _ _⟩

/-- C2: a rule check that throws is caught and formatted with the rule id,
node id and message into the error list (`ruleErrors` is by definition the
list of `formatRuleError rule.id node.id msg` for the throwing pairs, in
execution order); the audit continues, its issue list still being the
deduplicated raw issues of ALL non-throwing pairs; and the `errors` field
of the result is present exactly when at least one (rule, node) check
threw. -/
theorem auditNodes_error_isolation (rules : List Rule) (nodes : List FramerNode)
    (settings : PluginSettings) :
    (auditNodes rules nodes settings).errors =
      (if ruleErrors rules nodes settings = [] then none
       else some (ruleErrors rules nodes settings))
    ∧ ((auditNodes rules nodes settings).errors = none ↔
        ruleErrors rules nodes settings = [])
    ∧ (auditNodes rules nodes settings).issues =
        dedupFirstById (rawIssues rules nodes settings) [] := by
  have hmain : (auditNodes rules nodes settings).errors =
      (if ruleErrors rules nodes settings = [] then none
       else some (ruleErrors rules nodes settings)) := by
    rw [auditNodes_errors_eq rules nodes settings]
    rcases h : ruleErrors rules nodes settings with _ | ⟨e, es⟩
    · simp
    · simp
  refine ⟨hmain, ?_, auditNodes_issues_eq rules nodes settings⟩
  rw [hmain]
  rcases h : ruleErrors rules nodes settings with _ | ⟨e, es⟩
  · simp
  · simp

/-- C3: a registered rule is executed by `auditNodes` (i.e. belongs to
`getEnabledRules`, the list the audit loop iterates over) exactly when its
id is not in `disabledRules` and, if `enabledRules` is non-empty, its id
is in `enabledRules`, otherwise its `enabledByDefault` flag is set; the
disabled list always wins, even over allowlist membership. -/
theorem getEnabledRules_spec (rules : List Rule) (settings : PluginSettings)
    (rule : Rule) :
    (rule ∈ getEnabledRules rules settings ↔
      rule ∈ rules ∧ settings.disabledRules.contains rule.id = false ∧
        (if settings.enabledRules.length > 0
         then settings.enabledRules.contains rule.id = true
         else rule.enabledByDefault = true))
    ∧ (settings.disabledRules.contains rule.id = true →
        rule ∉ getEnabledRules rules settings) := by
  have hpred : ∀ r : Rule,
      ((if settings.disabledRules.contains r.id then false
        else if settings.enabledRules.length > 0 then
          settings.enabledRules.contains r.id
        else r.enabledByDefault) = true ↔
        settings.disabledRules.contains r.id = false ∧
          (if settings.enabledRules.length > 0
           then settings.enabledRules.contains r.id = true
           else r.enabledByDefault = true)) := by
    intro r
    by_cases hdis : settings.disabledRules.contains r.id = true
    · rw [if_pos hdis]
      constructor
      · intro h
        exact absurd h (by decide)
      · intro h
        rw [hdis] at h
        exact absurd h.1 (by decide)
    · rw [if_neg hdis]
      rw [Bool.not_eq_true] at hdis
      by_cases hlen : settings.enabledRules.length > 0
      · rw [if_pos hlen, if_pos hlen]
        exact ⟨fun h => ⟨hdis, h⟩, fun h => h.2⟩
      · rw [if_neg hlen, if_neg hlen]
        exact ⟨fun h => ⟨hdis, h⟩, fun h => h.2⟩
  constructor
  · rw [getEnabledRules, List.mem_filter]
    exact and_congr_right fun _ => hpred rule
  · intro hdis hmem
    rw [getEnabledRules, List.mem_filter] at hmem
    rw [hpred rule] at hmem
    rw [hmem.2.1] at hdis
    exact Bool.false_ne_true hdis

/-- A rule whose check returns no issue, used only to instantiate the
enabled-rule filter at concrete inputs. -/
def sampleRuleA : Rule :=
  { id := "rule-a", category := "layout", name := "A", description := ""
    enabledByDefault := false, check := fun _ _ => .ok none }

/-- Settings listing "rule-a" both in the allowlist and the denylist. -/
def sampleSettingsDenied : PluginSettings :=
  { DEFAULT_SETTINGS with enabledRules := ["rule-a"], disabledRules := ["rule-a"] }

/-- C3 witness: a rule present in the allowlist but also in the denylist
is not executed. -/
theorem getEnabledRules_spec_witness :
    sampleRuleA ∉ getEnabledRules [sampleRuleA] sampleSettingsDenied :=
  (getEnabledRules_spec [sampleRuleA] sampleSettingsDenied sampleRuleA).2 (by decide)

/- C4 groundwork: the flattening traversal agrees with the independently
translated `getAllDescendants` on every (necessarily finite and acyclic)
inductive tree, and the same recursion never finishes and never raises an
error on the one-node cycle, whatever the call-depth budget. -/
mutual

theorem traverseNode_eq : (n : FramerNode) →
    traverseNode n = n :: getAllDescendants n
  | .mk c i nm w h children => by
    rw [traverseNode, getAllDescendants, traverseForest_eq children]

theorem traverseForest_eq : (l : List FramerNode) →
    traverseForest l = descendantsOfForest l
  | [] => by
    rw [traverseForest, descendantsOfForest]
  | n :: ns => by
    rw [traverseForest, descendantsOfForest, traverseNode_eq n,
      traverseForest_eq ns, List.cons_append]

end

lemma descendantsOfForest_eq_flatMap : (l : List FramerNode) →
    descendantsOfForest l = l.flatMap (fun n => n :: getAllDescendants n)
  | [] => by rw [descendantsOfForest, List.flatMap_nil]
  | n :: ns => by
    rw [descendantsOfForest, List.flatMap_cons, descendantsOfForest_eq_flatMap ns,
      List.cons_append]

lemma traverseFuel_selfCycle_none : ∀ fuel : Nat,
    traverseFuel selfCycleChildren fuel "a" = none := by
  intro fuel
  induction fuel with
  | zero => rw [traverseFuel]
  | succ f ih =>
    rw [traverseFuel]
    have hlist : traverseFuelList selfCycleChildren f (selfCycleChildren "a") = none := by
      show traverseFuelList selfCycleChildren f ["a"] = none
      rw [traverseFuelList, ih]
    rw [hlist]

/-- C4 counterexample: the claim asserts that on a cyclic structure the
traversal fails fast with an error. The source recursion has no visited
set, no depth cap and no error path at all: on the one-node cycle, after
1000 nested `traverse` calls it has produced neither a result nor an
error — it is still recursing (and `traverseFuel_selfCycle_none` shows
the same for every finite call-depth budget, i.e. it never stops). -/
theorem flattenNodes_cycle_counterexample :
    traverseFuel selfCycleChildren 1000 "a" = none :=
  traverseFuel_selfCycle_none 1000

/-- C4 (amended): on every finite acyclic node tree the traversal
terminates (it is a total function of the inductive tree) and returns
each root followed by its descendants in depth-first discovery order —
it agrees with the separately-translated `getAllDescendants` preorder;
but on a cyclic structure it does NOT fail fast: the recursion runs
forever, returning nothing and raising nothing at every finite
call-depth budget. -/
theorem flattenNodes_dfs_and_cycle_divergence (nodes : List FramerNode) (fuel : Nat) :
    flattenNodes nodes = nodes.flatMap (fun n => n :: getAllDescendants n)
    ∧ traverseFuel selfCycleChildren fuel "a" = none := by
  constructor
  · show traverseForest nodes = _
    rw [traverseForest_eq nodes, descendantsOfForest_eq_flatMap nodes]
  · exact traverseFuel_selfCycle_none fuel

lemma fixLoop_spec (l : List Issue) (total : Nat) : ∀ i : Nat,
    fixLoop total i l =
      ((l.filter (fun issue => applyFix issue)).length,
       (l.filter (fun issue => !applyFix issue)).length,
       (List.range l.length).map (fun k => (i + k + 1, total))) := by
  induction l with
  | nil => intro i; rfl
  | cons issue rest ih =>
    intro i
    rw [fixLoop, ih (i + 1)]
    have hrange : (List.range (rest.length + 1)).map (fun k => (i + k + 1, total)) =
        (i + 1, total) :: (List.range rest.length).map (fun k => (i + 1 + k + 1, total)) := by
      rw [List.range_succ_eq_map, List.map_cons, List.map_map]
      have harith : ∀ k : Nat, i + (k + 1) + 1 = i + 1 + k + 1 := by omega
      simp [Function.comp, harith]
    by_cases hfix : applyFix issue = true
    · simp only [List.filter_cons, hfix, Bool.not_true, List.length_cons, hrange]
      rfl
    · rw [Bool.not_eq_true] at hfix
      simp only [List.filter_cons, hfix, Bool.not_false, List.length_cons, hrange]
      rfl

/-- The three-issue example of spec §8: two auto-fixable issues whose
thunks succeed and one non-fixable issue. -/
def sampleFixIssues : List Issue :=
  [ { id := "i1", node := ⟨"n1", none, none, none⟩, ruleId := "r", title := "t"
      description := "d", severity := .info, category := "layout"
      canAutoFix := true, fixAction := some true, metadata := [] },
    { id := "i2", node := ⟨"n2", none, none, none⟩, ruleId := "r", title := "t"
      description := "d", severity := .info, category := "layout"
      canAutoFix := false, fixAction := none, metadata := [] },
    { id := "i3", node := ⟨"n3", none, none, none⟩, ruleId := "r", title := "t"
      description := "d", severity := .info, category := "layout"
      canAutoFix := true, fixAction := some true, metadata := [] } ]

/-- C5: `applyAllFixes` works on exactly the input issues that are
auto-fixable with a fix thunk present, strictly sequentially in input
order; `success` counts the fixable issues whose `applyFix` returns true,
`failed` the others, so `success + failed` is the number of fixable
issues and non-fixable inputs contribute to neither counter; the progress
callback is invoked once after each attempt with (attempts so far, total
fixable); and on 3 issues of which the 2 fixable ones succeed the result
is success 2, failed 0. -/
theorem applyAllFixes_spec (issues : List Issue) :
    (applyAllFixes issues).success =
      ((issues.filter (fun issue => issue.canAutoFix && issue.fixAction.isSome)).filter
        (fun issue => applyFix issue)).length
    ∧ (applyAllFixes issues).failed =
      ((issues.filter (fun issue => issue.canAutoFix && issue.fixAction.isSome)).filter
        (fun issue => !applyFix issue)).length
    ∧ (applyAllFixes issues).success + (applyAllFixes issues).failed =
      (issues.filter (fun issue => issue.canAutoFix && issue.fixAction.isSome)).length
    ∧ (applyAllFixes issues).progressCalls =
      (List.range
        (issues.filter (fun issue => issue.canAutoFix && issue.fixAction.isSome)).length).map
        (fun k => (k + 1,
          (issues.filter (fun issue => issue.canAutoFix && issue.fixAction.isSome)).length))
    ∧ applyAllFixes sampleFixIssues =
        { success := 2, failed := 0, progressCalls := [(1, 2), (2, 2)] } := by
  have hloop := fixLoop_spec
    (issues.filter (fun issue => issue.canAutoFix && issue.fixAction.isSome))
    (issues.filter (fun issue => issue.canAutoFix && issue.fixAction.isSome)).length 0
  have h1 : (applyAllFixes issues).success =
      ((issues.filter (fun issue => issue.canAutoFix && issue.fixAction.isSome)).filter
        (fun issue => applyFix issue)).length := by
    show (fixLoop _ 0 _).1 = _
    rw [hloop]
  have h2 : (applyAllFixes issues).failed =
      ((issues.filter (fun issue => issue.canAutoFix && issue.fixAction.isSome)).filter
        (fun issue => !applyFix issue)).length := by
    show (fixLoop _ 0 _).2.1 = _
    rw [hloop]
  refine ⟨h1, h2, ?_, ?_, by decide⟩
  · rw [h1, h2]
    exact (List.length_eq_length_filter_add (fun issue => applyFix issue)).symm
  · show (fixLoop _ 0 _).2.2 = _
    rw [hloop]
    simp only [Nat.zero_add]

lemma getLastUndo_append_last (l : List UndoEntry) (e : UndoEntry) :
    getLastUndo (l ++ [e]) e.issueId = some e := by
  unfold getLastUndo
  simp only [List.reverse_append, List.reverse_singleton, List.singleton_append]
  rw [List.find?_cons_of_pos]
  simp

set_option maxRecDepth 10000 in
/-- C6: the undo log is a 50-entry first-in-first-out ring buffer: a
`storeUndo` on a stack at or below capacity stays at or below capacity;
at exactly full capacity the oldest entry is evicted and the new entry
appended; below capacity it is a plain append; right after storing, the
stored issue id queries back to the new entry (newest-first scan); and in
the concrete 51-distinct-ids scenario the first entry's id queries to
undefined while the 51st queries to its entry, the log holding exactly 50
entries. -/
theorem undoLog_ring_buffer (stack : List UndoEntry)
    (issueId nodeId property previousValue : String) (timestamp : Nat)
    (h : stack.length ≤ MAX_UNDO_ENTRIES) :
    (storeUndo stack issueId nodeId property previousValue timestamp).length ≤
      MAX_UNDO_ENTRIES
    ∧ (stack.length = MAX_UNDO_ENTRIES →
        storeUndo stack issueId nodeId property previousValue timestamp =
          stack.drop 1 ++ [⟨issueId, nodeId, property, previousValue, timestamp⟩])
    ∧ (stack.length < MAX_UNDO_ENTRIES →
        storeUndo stack issueId nodeId property previousValue timestamp =
          stack ++ [⟨issueId, nodeId, property, previousValue, timestamp⟩])
    ∧ getLastUndo (storeUndo stack issueId nodeId property previousValue timestamp)
        issueId = some ⟨issueId, nodeId, property, previousValue, timestamp⟩
    ∧ getLastUndo (pushManyUndos 51) "e0" = none
    ∧ getLastUndo (pushManyUndos 51) "e50" = some ⟨"e50", "node", "prop", "val", 50⟩
    ∧ (pushManyUndos 51).length = MAX_UNDO_ENTRIES := by
  have hfull : stack.length = MAX_UNDO_ENTRIES →
      storeUndo stack issueId nodeId property previousValue timestamp =
        stack.drop 1 ++ [⟨issueId, nodeId, property, previousValue, timestamp⟩] := by
    intro hlen
    unfold storeUndo
    rw [if_pos (by simp [hlen])]
    rw [List.drop_append_of_le_length (by rw [hlen]; decide)]
  have hroom : stack.length < MAX_UNDO_ENTRIES →
      storeUndo stack issueId nodeId property previousValue timestamp =
        stack ++ [⟨issueId, nodeId, property, previousValue, timestamp⟩] := by
    intro hlen
    unfold storeUndo
    rw [if_neg (by simp only [List.length_append, List.length_cons, List.length_nil]; omega)]
  have hbound : (storeUndo stack issueId nodeId property previousValue timestamp).length ≤
      MAX_UNDO_ENTRIES := by
    rcases Nat.lt_or_ge stack.length MAX_UNDO_ENTRIES with hlt | hge
    · rw [hroom hlt]
      simp only [List.length_append, List.length_cons, List.length_nil, MAX_UNDO_ENTRIES]
      simp only [MAX_UNDO_ENTRIES] at hlt
      omega
    · have hlen := Nat.le_antisymm h hge
      rw [hfull hlen]
      simp only [List.length_append, List.length_cons, List.length_nil,
        List.length_drop, MAX_UNDO_ENTRIES]
      simp only [MAX_UNDO_ENTRIES] at hlen
      omega
  have hquery : getLastUndo
      (storeUndo stack issueId nodeId property previousValue timestamp) issueId =
      some ⟨issueId, nodeId, property, previousValue, timestamp⟩ := by
    rcases Nat.lt_or_ge stack.length MAX_UNDO_ENTRIES with hlt | hge
    · rw [hroom hlt]
      exact getLastUndo_append_last stack ⟨issueId, nodeId, property, previousValue, timestamp⟩
    · rw [hfull (Nat.le_antisymm h hge)]
      exact getLastUndo_append_last (stack.drop 1)
        ⟨issueId, nodeId, property, previousValue, timestamp⟩
  exact ⟨hbound, hfull, hroom, hquery, by decide, by decide, by decide⟩

/-- C6 witness: the ring-buffer theorem applied to the empty stack. -/
theorem undoLog_ring_buffer_witness :
    (storeUndo [] "a" "n" "p" "v" 0).length ≤ MAX_UNDO_ENTRIES :=
  (undoLog_ring_buffer [] "a" "n" "p" "v" 0 (by decide)).1

/-- C7 counterexample: the claim says half-way ties round away from zero,
including for negative values, which at value -2 on the 4-grid demands
-4. The code uses `Math.round`, which rounds halves toward positive
infinity, so `nearestGridValue(-2, 4)` is 0, not -4. -/
theorem nearestGridValue_tie_counterexample :
    nearestGridValue (-2) 4 = 0 ∧ nearestGridValue (-2) 4 ≠ -4 := by
  have hz : (-2 : ℚ) / 4 + 1 / 2 = 0 := by norm_num
  constructor
  · rw [nearestGridValue, jsRound, hz, Int.floor_zero]
    norm_num
  · rw [nearestGridValue, jsRound, hz, Int.floor_zero]
    norm_num

/-- C7 (amended): for grid bases 4 and 8, `nearestGridValue` returns a
multiple of the base at minimal distance from the value, but half-way
ties are rounded toward positive infinity (`Math.round` semantics) — for
non-negative values this coincides with away-from-zero, for negative
half-way values it picks the upper multiple; `isOnGrid` is true exactly
when the value is an exact integer multiple of the base, with no
tolerance. -/
theorem nearestGridValue_spec (value gridBase : ℚ)
    (h : gridBase = 4 ∨ gridBase = 8) :
    (∃ k : ℤ, nearestGridValue value gridBase = k * gridBase)
    ∧ (∀ k : ℤ, |value - nearestGridValue value gridBase| ≤ |value - k * gridBase|)
    ∧ (∀ k : ℤ, value = (k + 1 / 2) * gridBase →
        nearestGridValue value gridBase = (k + 1) * gridBase)
    ∧ (isOnGrid value gridBase = true ↔ ∃ k : ℤ, value = k * gridBase) := by
  have hb : (0 : ℚ) < gridBase := by rcases h with h | h <;> rw [h] <;> norm_num
  have hbne : gridBase ≠ 0 := ne_of_gt hb
  have hval : value / gridBase * gridBase = value := div_mul_cancel₀ value hbne
  refine ⟨⟨jsRound (value / gridBase), rfl⟩, ?_, ?_, ?_⟩
  · intro k
    set x := value / gridBase with hx
    set m := jsRound x with hmdef
    have hm1 : (m : ℚ) ≤ x + 1 / 2 := Int.floor_le _
    have hm2 : x + 1 / 2 < (m : ℚ) + 1 := Int.lt_floor_add_one _
    have habs : |x - (m : ℚ)| ≤ 1 / 2 := abs_le.mpr ⟨by linarith, by linarith⟩
    have hxm : |x - (m : ℚ)| ≤ |x - (k : ℚ)| := by
      by_cases hk : k = m
      · rw [hk]
      · have hne : (m : ℤ) - k ≠ 0 := sub_ne_zero.mpr (Ne.symm hk)
        have hone : (1 : ℚ) ≤ |(m : ℚ) - (k : ℚ)| := by
          have h1 := Int.one_le_abs hne
          have h2 : ((1 : ℤ) : ℚ) ≤ ((|m - k| : ℤ) : ℚ) := by exact_mod_cast h1
          rwa [Int.cast_abs, Int.cast_sub, Int.cast_one] at h2
        have htri : |(m : ℚ) - k| ≤ |(m : ℚ) - x| + |x - k| := abs_sub_le _ _ _
        have hcomm : |(m : ℚ) - x| = |x - (m : ℚ)| := abs_sub_comm _ _
        linarith
    have h1 : value - (m : ℚ) * gridBase = (x - m) * gridBase := by
      rw [← hval]; ring
    have h2 : value - (k : ℚ) * gridBase = (x - k) * gridBase := by
      rw [← hval]; ring
    rw [show nearestGridValue value gridBase = (m : ℚ) * gridBase from rfl]
    rw [h1, h2, abs_mul, abs_mul, abs_of_pos hb]
    exact mul_le_mul_of_nonneg_right hxm hb.le
  · intro k hk
    have hx : value / gridBase = (k : ℚ) + 1 / 2 := by
      rw [hk, mul_div_assoc, div_self hbne, mul_one]
    have hm : jsRound (value / gridBase) = k + 1 := by
      rw [jsRound, hx]
      have : (k : ℚ) + 1 / 2 + 1 / 2 = ((k + 1 : ℤ) : ℚ) := by push_cast; ring
      rw [this, Int.floor_intCast]
    rw [nearestGridValue, hm]
    push_cast
    ring
  · rw [isOnGrid, decide_eq_true_eq]
    constructor
    · intro h0
      refine ⟨jsTrunc (value / gridBase), ?_⟩
      rw [jsFmod] at h0
      linear_combination h0
    · rintro ⟨k, rfl⟩
      rw [jsFmod]
      have hdiv : (k : ℚ) * gridBase / gridBase = (k : ℚ) := by
        rw [mul_div_assoc, div_self hbne, mul_one]
      rw [hdiv]
      have htr : jsTrunc ((k : ℚ)) = k := by
        rw [jsTrunc]
        by_cases hk0 : (0 : ℚ) ≤ (k : ℚ)
        · rw [if_pos hk0, Int.floor_intCast]
        · rw [if_neg hk0, Int.ceil_intCast]
      rw [htr]
      ring

/-- C7 witness: 8 is on the 4-grid. -/
theorem nearestGridValue_spec_witness : isOnGrid 8 4 = true :=
  (nearestGridValue_spec 8 4 (Or.inl rfl)).2.2.2.mpr ⟨2, by norm_num⟩

/-- C8 counterexample: "12em" is neither a number, nor "fill"/"1fr", nor
a `<number>px` string, nor a bare numeric string, so the claim requires
`parseDimension` to return undefined on it; but the code's fallback is
`parseFloat`, which parses the numeric PREFIX of a string, so the code
returns the number 12. -/
theorem parseDimension_numeric_prefix_counterexample :
    parseDimension (.str "12em") = .num 12 ∧ Dimension.num 12 ≠ .undefined := by
  constructor
  · norm_num +decide [parseDimension, pxBody, jsParseFloat, jsParseFloatCore, skipWs,
      digitsToNat, List.takeWhile, List.dropWhile, Char.isDigit,
      show Char.toNat '0' = 48 from rfl, show Char.toNat '1' = 49 from rfl,
      show Char.toNat '2' = 50 from rfl]
  · decide

/-- C8 (amended): `parseDimension` returns the number itself for numeric
input, the fill sentinel for exactly the strings "fill" and "1fr", and
the numeric value for `<number>px` strings and bare numeric strings; but
because the fallback is JavaScript `parseFloat`, any other string with a
parseable numeric prefix (such as "12em") also returns that prefix's
value; undefined is returned exactly for the remaining strings, the ones
on which `parseFloat` yields NaN — including "hug" and every string with
no numeric prefix. -/
theorem parseDimension_spec :
    (∀ q : ℚ, parseDimension (.num q) = .num q)
    ∧ parseDimension (.str "fill") = .fill
    ∧ parseDimension (.str "1fr") = .fill
    ∧ (∀ s : String, parseDimension (.str s) = .fill → s = "fill" ∨ s = "1fr")
    ∧ parseDimension (.str "109px") = .num 109
    ∧ parseDimension (.str "12.5") = .num (25 / 2)
    ∧ parseDimension (.str "12em") = .num 12
    ∧ parseDimension (.str "hug") = .undefined
    ∧ (∀ s : String, s ≠ "fill" → s ≠ "1fr" → pxBody s = none →
        jsParseFloat s = none → parseDimension (.str s) = .undefined) := by
  refine ⟨fun q => rfl, by decide, by decide, ?_, ?_, ?_, ?_, by decide, ?_⟩
  · intro s hfill
    by_cases hs : (s == "fill" || s == "1fr") = true
    · simpa using hs
    · exfalso
      simp only [parseDimension] at hfill
      rw [if_neg hs] at hfill
      rcases hpx : pxBody s with _ | body
      · rw [hpx] at hfill
        rcases hpf : jsParseFloat s with _ | q
        · simp only [hpf] at hfill
          exact Dimension.noConfusion hfill
        · simp only [hpf] at hfill
          exact Dimension.noConfusion hfill
      · rw [hpx] at hfill
        rcases hpf : jsParseFloat body with _ | q
        · simp only [hpf] at hfill
          exact Dimension.noConfusion hfill
        · simp only [hpf] at hfill
          exact Dimension.noConfusion hfill
  · norm_num +decide [parseDimension, pxBody, jsParseFloat, jsParseFloatCore, skipWs,
      digitsToNat, List.takeWhile, List.dropWhile, Char.isDigit,
      show Char.toNat '0' = 48 from rfl, show Char.toNat '1' = 49 from rfl,
      show Char.toNat '9' = 57 from rfl]
  · norm_num +decide [parseDimension, pxBody, jsParseFloat, jsParseFloatCore, skipWs,
      digitsToNat, List.takeWhile, List.dropWhile, Char.isDigit,
      show Char.toNat '0' = 48 from rfl, show Char.toNat '1' = 49 from rfl,
      show Char.toNat '2' = 50 from rfl, show Char.toNat '5' = 53 from rfl]
  · norm_num +decide [parseDimension, pxBody, jsParseFloat, jsParseFloatCore, skipWs,
      digitsToNat, List.takeWhile, List.dropWhile, Char.isDigit,
      show Char.toNat '0' = 48 from rfl, show Char.toNat '1' = 49 from rfl,
      show Char.toNat '2' = 50 from rfl]
  · intro s h1 h2 hpx hpf
    have hs : (s == "fill" || s == "1fr") = false := by simp [h1, h2]
    simp only [parseDimension]
    rw [if_neg (by rw [hs]; exact Bool.false_ne_true), hpx, hpf]

/-- C8 witness: a string with no numeric prefix parses to undefined. -/
theorem parseDimension_spec_witness : parseDimension (.str "abc") = .undefined :=
  parseDimension_spec.2.2.2.2.2.2.2.2 "abc" (by decide) (by decide) (by decide) (by decide)

lemma filter_orderedInsert_severity (a : Issue) (l : List Issue) (s : Severity) :
    (l.orderedInsert
        (fun x y => severityOrder x.severity ≤ severityOrder y.severity) a).filter
      (fun issue => issue.severity == s) =
    (a :: l).filter (fun issue => issue.severity == s) := by
  induction l with
  | nil => rfl
  | cons b rest ih =>
    rw [List.orderedInsert]
    by_cases hab : severityOrder a.severity ≤ severityOrder b.severity
    · rw [if_pos hab]
    · rw [if_neg hab]
      have hlt : severityOrder b.severity < severityOrder a.severity := by omega
      by_cases hbs : (b.severity == s) = true
      · have hbs' : b.severity = s := by simpa using hbs
        have has : (a.severity == s) = false := by
          rw [beq_eq_false_iff_ne]
          intro hcon
          have : severityOrder a.severity = severityOrder b.severity := by
            rw [hcon, hbs']
          omega
        simp only [List.filter_cons, hbs, has, if_true, if_false, ih]
        simp [has]
      · rw [Bool.not_eq_true] at hbs
        by_cases has : (a.severity == s) = true
        · simp only [List.filter_cons, hbs, has, ih]
          simp [has, hbs]
        · rw [Bool.not_eq_true] at has
          simp only [List.filter_cons, hbs, has, ih]
          simp [has, hbs]

/-- C9: `sortBySeverity` returns a permutation of its input, sorted so
that every error-severity issue precedes every warning, and every warning
precedes every info (the severity ranks are non-decreasing along the
output), while issues of equal severity keep their relative input order
(the output's subsequence of each severity equals the input's). -/
theorem sortBySeverity_spec (issues : List Issue) :
    (sortBySeverity issues).Perm issues
    ∧ (sortBySeverity issues).Sorted
        (fun a b => severityOrder a.severity ≤ severityOrder b.severity)
    ∧ ∀ s : Severity,
        (sortBySeverity issues).filter (fun issue => issue.severity == s) =
          issues.filter (fun issue => issue.severity == s) := by
  refine ⟨List.perm_insertionSort _ issues, ?_, ?_⟩
  · haveI : IsTotal Issue
        (fun a b => severityOrder a.severity ≤ severityOrder b.severity) :=
      ⟨fun a b => Nat.le_total _ _⟩
    haveI : IsTrans Issue
        (fun a b => severityOrder a.severity ≤ severityOrder b.severity) :=
      ⟨fun _ _ _ hab hbc => Nat.le_trans hab hbc⟩
    exact List.sorted_insertionSort _ issues
  · intro s
    unfold sortBySeverity
    induction issues with
    | nil => rfl
    | cons a rest ih =>
      rw [List.insertionSort, filter_orderedInsert_severity]
      simp only [List.filter_cons, ih]

lemma overflowHeightIssue_id (node : FramerNode) (th ph : ℚ) :
    (overflowHeightIssue node th ph).id = "overflowing-text-" ++ node.id := by
  show "overflowing-text" ++ "-" ++ node.id = _
  have h : "overflowing-text" ++ "-" = "overflowing-text-" := by decide
  rw [h]

lemma overflowWidthIssue_id (node : FramerNode) (tw pw : ℚ) :
    (overflowWidthIssue node tw pw).id = "overflowing-text-width-" ++ node.id := by
  show "overflowing-text" ++ "-width-" ++ node.id = _
  have h : "overflowing-text" ++ "-width-" = "overflowing-text-width-" := by decide
  rw [h]

lemma overflowWidthBranch_some (node parent : FramerNode) (issue : Issue)
    (h : overflowWidthBranch node parent = some issue) :
    issue.id = "overflowing-text-width-" ++ node.id ∧ issue.severity = .warning := by
  unfold overflowWidthBranch at h
  rcases htw : getNodeWidth node with _ | (_ | tw) <;>
    rcases hpw : getNodeWidth parent with _ | (_ | pw) <;>
    simp only [htw, hpw] at h <;>
    try exact Option.noConfusion h
  by_cases hlt : pw < tw
  · rw [if_pos hlt] at h
    cases h
    exact ⟨overflowWidthIssue_id node tw pw, rfl⟩
  · rw [if_neg hlt] at h
    exact absurd h (by simp)

/-- C10: for a text node with a frame parent whose parsed height and
width BOTH overflow the parent's, the overflowing-text check returns only
the height-overflow issue (id `overflowing-text-<nodeId>`, severity
error); and conversely, whenever the check returns the warning-severity
issue, the height condition was false — a width-overflow issue (id
`overflowing-text-width-<nodeId>`) can only be returned when the height
does not overflow, the check yielding at most one issue per node by
construction. -/
theorem overflowingText_precedence :
    (∀ (node parent : FramerNode) (context : AuditContext)
        (textHeight parentHeight textWidth parentWidth : ℚ),
      context.parent = some parent →
      isTextNode node = true →
      isFrameNode parent = true →
      getNodeHeight node = some (.fin textHeight) →
      getNodeHeight parent = some (.fin parentHeight) →
      parentHeight < textHeight →
      getNodeWidth node = some (.fin textWidth) →
      getNodeWidth parent = some (.fin parentWidth) →
      parentWidth < textWidth →
      overflowingTextCheck node context =
        some (overflowHeightIssue node textHeight parentHeight)
      ∧ (overflowHeightIssue node textHeight parentHeight).id =
          "overflowing-text-" ++ node.id
      ∧ (overflowHeightIssue node textHeight parentHeight).severity = .error)
    ∧ (∀ (node parent : FramerNode) (context : AuditContext) (issue : Issue),
        context.parent = some parent →
        overflowingTextCheck node context = some issue →
        issue.severity = .warning →
        jsGtOpt (getNodeHeight node) (getNodeHeight parent) = false
        ∧ issue.id = "overflowing-text-width-" ++ node.id) := by
  constructor
  · intro node parent context textHeight parentHeight textWidth parentWidth
      hparent htext hframe hth hph hhgt _htw _hpw _hwgt
    refine ⟨?_, overflowHeightIssue_id node textHeight parentHeight, rfl⟩
    unfold overflowingTextCheck
    simp only [htext, hparent, Bool.not_true, Bool.false_eq_true, if_false]
    simp only [hframe, Bool.not_true, Bool.false_eq_true, if_false]
    simp only [hth, hph]
    rw [if_pos hhgt]
  · intro node parent context issue hparent hcheck hsev
    unfold overflowingTextCheck at hcheck
    by_cases htext : isTextNode node = true
    · simp only [htext, hparent, Bool.not_true, Bool.false_eq_true, if_false] at hcheck
      by_cases hframe : isFrameNode parent = true
      · simp only [hframe, Bool.not_true, Bool.false_eq_true, if_false] at hcheck
        rcases hth : getNodeHeight node with _ | (_ | th) <;>
          rcases hph : getNodeHeight parent with _ | (_ | ph) <;>
          simp only [hth, hph] at hcheck <;>
          try exact ⟨by simp [jsGtOpt, jsGt, hth, hph],
            (overflowWidthBranch_some node parent issue hcheck).1⟩
        by_cases hhgt : ph < th
        · rw [if_pos hhgt] at hcheck
          cases hcheck
          exact Severity.noConfusion
            (show Severity.error = Severity.warning from hsev)
        · rw [if_neg hhgt] at hcheck
          refine ⟨?_, (overflowWidthBranch_some node parent issue hcheck).1⟩
          simp [jsGtOpt, jsGt, hth, hph, hhgt]
      · rw [Bool.not_eq_true] at hframe
        simp only [hframe, Bool.not_false, if_true] at hcheck
        exact absurd hcheck (by simp)
    · rw [Bool.not_eq_true] at htext
      simp only [htext, Bool.not_false, if_true] at hcheck
      exact absurd hcheck (by simp)

/-- Concrete 100x100 text node inside a 50x50 frame parent. -/
def sampleTextNode : FramerNode :=
  .mk "TextNode" "t1" none (some (.num 100)) (some (.num 100)) []

def sampleFrameParent : FramerNode :=
  .mk "FrameNode" "f1" none (some (.num 50)) (some (.num 50)) [sampleTextNode]

def sampleOverflowContext : AuditContext :=
  { allNodes := [sampleFrameParent, sampleTextNode]
    parent := some sampleFrameParent
    siblings := []
    settings := DEFAULT_SETTINGS }

/-- C10 witness: on the concrete doubly-overflowing text node, the check
returns exactly the height-overflow issue. -/
theorem overflowingText_precedence_witness :
    overflowingTextCheck sampleTextNode sampleOverflowContext =
      some (overflowHeightIssue sampleTextNode 100 50) :=
  (overflowingText_precedence.1 sampleTextNode sampleFrameParent
    sampleOverflowContext 100 50 100 50 rfl rfl rfl (by decide) (by decide)
    (by decide) (by decide) (by decide) (by decide)).1

end LayerScan
